import Mathlib

/- Shallow embedding of src/quadtree_compression.cpp.

   Machine integers are modelled as Nat: every coordinate, size, depth and
   histogram count reachable from the entry points is nonnegative, and C++ int
   division on nonnegative operands agrees with Nat division.  The double
   arithmetic of the statistics functions is modelled with real numbers.  The
   OpenCV collaborators calcHist and mean are modelled by exact pixel counts
   and exact per-channel sums over the region, per their documented contract
   (the spec likewise treats the pixel-statistics primitives as external
   collaborators with a defined contract). -/

namespace QTC

set_option maxRecDepth 40000

/-- Configuration constant MAX_DEPTH from the source. -/
def MAX_DEPTH : ℕ := 8

/-- Configuration constant DETAIL_THRESHOLD from the source. -/
def DETAIL_THRESHOLD : ℝ := 13

/-- cv Rect with fields x, y, width, height, in source-image pixel
    coordinates. -/
structure Rect where
  x : ℕ
  y : ℕ
  width : ℕ
  height : ℕ
deriving DecidableEq

/-- A source image: a cols-by-rows grid of pixels, each pixel three 8-bit
    unsigned channel values (channel 0, 1, 2 in plane order). -/
structure Image where
  cols : ℕ
  rows : ℕ
  pix : ℕ → ℕ → Fin 3 → Fin 256

/-- The OpenCV calcHist collaborator on the sub-image of img under r: bin v of
    the histogram of channel c counts the pixels of the region whose channel c
    value is v. -/
def calcHist (img : Image) (r : Rect) (c : Fin 3) (v : ℕ) : ℕ :=
  ((Finset.range r.width ×ˢ Finset.range r.height).filter
    (fun p => (img.pix (r.x + p.1) (r.y + p.2) c).val = v)).card

/-- weighted_average from the source: the population standard deviation of the
    bin index of hist, weighted by bin counts, or 0 when the total count is
    zero.  The C++ computes total and value in one loop, then divides value by
    total (the weighted mean) and accumulates the squared deviations. -/
noncomputable def weighted_average (hist : ℕ → ℕ) (size : ℕ) : ℝ :=
  let total : ℕ := ∑ i ∈ Finset.range size, hist i
  let value : ℝ := ∑ i ∈ Finset.range size, (i : ℝ) * (hist i : ℝ)
  if 0 < total then
    Real.sqrt
      ((∑ i ∈ Finset.range size, (hist i : ℝ) * ((i : ℝ) - value / (total : ℝ)) ^ 2)
        / (total : ℝ))
  else 0

/-- get_detail from the source: per-channel standard deviations of the 256-bin
    histograms, combined as red * 0.2989 + green * 0.5870 + blue * 0.1140,
    where blue is plane 0, green plane 1 and red plane 2 of the split image.
    This version idealizes the buffer read as the exact bin counts and serves
    as the detail oracle of the build claims; the variant the program
    executes, which reads the CV_32F bins through an (int*) cast, is
    get_detail_bits further below, and the two agree on the histograms used
    by the witnesses here (all occupied bins holding a common count, so the
    reinterpretation rescales every weight by one factor). -/
noncomputable def get_detail (img : Image) (r : Rect) : ℝ :=
  let blue_detail := weighted_average (calcHist img r 0) 256
  let green_detail := weighted_average (calcHist img r 1) 256
  let red_detail := weighted_average (calcHist img r 2) 256
  red_detail * 0.2989 + green_detail * 0.5870 + blue_detail * 0.1140

/-- average_color from the source: the per-channel mean over the region,
    truncated to an 8-bit unsigned value.  The OpenCV mean of an empty region
    is 0, which Nat division by zero also yields. -/
def average_color (img : Image) (r : Rect) : Fin 3 → ℕ := fun c =>
  (∑ p ∈ Finset.range r.width ×ˢ Finset.range r.height,
      (img.pix (r.x + p.1) (r.y + p.2) c).val)
    / (r.width * r.height)

/-- The Quadrant class: bbox, depth, the is_leaf flag, the four child pointers
    (vector of size 4, initialized to nullptr by the constructor), the average
    color and the detail score computed at construction. -/
inductive Quadrant : Type where
  | mk (bbox : Rect) (depth : ℕ) (lf : Bool)
       (c0 c1 c2 c3 : Option Quadrant)
       (color : Fin 3 → ℕ) (detail : ℝ) : Quadrant

def Quadrant.bbox : Quadrant → Rect
  | .mk b _ _ _ _ _ _ _ _ => b

def Quadrant.depth : Quadrant → ℕ
  | .mk _ d _ _ _ _ _ _ _ => d

def Quadrant.is_leaf : Quadrant → Bool
  | .mk _ _ l _ _ _ _ _ _ => l

def Quadrant.c0 : Quadrant → Option Quadrant
  | .mk _ _ _ a _ _ _ _ _ => a

def Quadrant.c1 : Quadrant → Option Quadrant
  | .mk _ _ _ _ a _ _ _ _ => a

def Quadrant.c2 : Quadrant → Option Quadrant
  | .mk _ _ _ _ _ a _ _ _ => a

def Quadrant.c3 : Quadrant → Option Quadrant
  | .mk _ _ _ _ _ _ a _ _ => a

def Quadrant.color : Quadrant → (Fin 3 → ℕ)
  | .mk _ _ _ _ _ _ _ c _ => c

def Quadrant.detail : Quadrant → ℝ
  | .mk _ _ _ _ _ _ _ _ d => d

/-- The four child rectangles computed by Quadrant::split_region, in children
    order top-left, top-right, bottom-left, bottom-right, using
    middle_x = x + width / 2 and middle_y = y + height / 2. -/
def split_region (r : Rect) : Rect × Rect × Rect × Rect :=
  let middle_x := r.x + r.width / 2
  let middle_y := r.y + r.height / 2
  (⟨r.x, r.y, r.width / 2, r.height / 2⟩,
   ⟨middle_x, r.y, r.width / 2, r.height / 2⟩,
   ⟨r.x, middle_y, r.width / 2, r.height / 2⟩,
   ⟨middle_x, middle_y, r.width / 2, r.height / 2⟩)

open Classical in
/-- QuadTree::build, with the image statistics abstracted into the two oracle
    functions det and avg that the Quadrant constructor calls on a bbox
    (det = get_detail of the sub-image, avg = average_color of it), and the
    mutable QuadTree::max_depth field threaded through as explicit state.
    A node stops (is_leaf becomes true, max_depth is raised to its depth when
    larger) when depth >= MAX_DEPTH or detail < DETAIL_THRESHOLD; otherwise
    split_region allocates the four children and build recurses into each in
    order. -/
noncomputable def build (det : Rect → ℝ) (avg : Rect → (Fin 3 → ℕ))
    (bbox : Rect) (depth : ℕ) (maxd : ℕ) : Quadrant × ℕ :=
  if h : MAX_DEPTH ≤ depth ∨ det bbox < DETAIL_THRESHOLD then
    (Quadrant.mk bbox depth true none none none none (avg bbox) (det bbox),
     if maxd < depth then depth else maxd)
  else
    let r := split_region bbox
    let p0 := build det avg r.1 (depth + 1) maxd
    let p1 := build det avg r.2.1 (depth + 1) p0.2
    let p2 := build det avg r.2.2.1 (depth + 1) p1.2
    let p3 := build det avg r.2.2.2 (depth + 1) p2.2
    (Quadrant.mk bbox depth false (some p0.1) (some p1.1) (some p2.1) (some p3.1)
       (avg bbox) (det bbox),
     p3.2)
termination_by MAX_DEPTH - depth
decreasing_by
  all_goals (push_neg at h; simp only [MAX_DEPTH] at *; omega)

/-- The tree grown by build from a given bbox and depth (the first component
    of build; the threaded max_depth state does not influence it, as proved
    below). -/
noncomputable def buildT (det : Rect → ℝ) (avg : Rect → (Fin 3 → ℕ))
    (bbox : Rect) (depth : ℕ) : Quadrant :=
  (build det avg bbox depth 0).1

/-- The QuadTree constructor followed by build on the root: the constructor
    sets max_depth to 0 and creates the root Quadrant over
    Rect(0, 0, image.cols, image.rows) at depth 0; build then grows the tree.
    Result: the built root and the final max_depth field. -/
noncomputable def quadTree (img : Image) : Quadrant × ℕ :=
  build (get_detail img) (average_color img) ⟨0, 0, img.cols, img.rows⟩ 0 0

/-- One drawing command issued by QuadTree::draw_quadrants: a filled rectangle
    of a given color, or the one-pixel black outline drawn for show_lines. -/
inductive DrawOp : Type where
  | fill (r : Rect) (c : Fin 3 → ℕ) : DrawOp
  | border (r : Rect) : DrawOp
deriving DecidableEq

/-- QuadTree::draw_quadrants as the list of drawing commands it issues, or
    none for a crash.  The C++ guard is (quad->is_leaf == depth ||
    quad->is_leaf): the bool is_leaf is integer-promoted (false = 0, true = 1)
    and compared with the int depth argument.  In the else branch the loop
    body runs only when !child holds, i.e. only for null children, and calling
    draw_quadrants on a null pointer dereferences it at once (modelled as
    none); non-null children are skipped, so the loop never descends into an
    actual subtree and draws nothing for it. -/
def draw_quadrants (q : Quadrant) (depth : ℕ) (show_lines : Bool) :
    Option (List DrawOp) :=
  if (if q.is_leaf then 1 else 0) = depth ∨ q.is_leaf = true then
    some ([DrawOp.fill q.bbox q.color] ++
      if show_lines then [DrawOp.border q.bbox] else [])
  else
    if q.c0.isNone || q.c1.isNone || q.c2.isNone || q.c3.isNone then none
    else some []

/-- QuadTree::free_quadtree as the list of nodes it releases, or none for a
    crash.  Its loop body also runs only when !child holds, i.e. only for null
    children: it then calls free_quadtree on the null pointer, which
    dereferences it at once (modelled as none).  Non-null children are skipped
    and never released, and the node itself is never released either (the
    delete statement targets the address of the vector slot, inside the
    null-child branch that has already crashed). -/
def free_quadtree (q : Quadrant) : Option (List Quadrant) :=
  if q.c0.isNone || q.c1.isNone || q.c2.isNone || q.c3.isNone then none
  else some []

/-- All nodes of a tree in preorder.  Build produces only all-or-nothing
    children vectors (proved below); on a node with exactly four non-null
    children the traversal descends into all four. -/
def nodes : Quadrant → List Quadrant
  | .mk b d l (some t0) (some t1) (some t2) (some t3) co de =>
      Quadrant.mk b d l (some t0) (some t1) (some t2) (some t3) co de ::
        (nodes t0 ++ nodes t1 ++ nodes t2 ++ nodes t3)
  | q => [q]

/-- The depths of the leaf nodes of a tree. -/
def leafDepths (q : Quadrant) : List ℕ :=
  (nodes q).filterMap (fun n => if n.is_leaf then some n.depth else none)

/-- The maximum depth over all leaf nodes (0 for a tree without leaves, which
    build never produces). -/
def maxLeafDepth (q : Quadrant) : ℕ :=
  (leafDepths q).foldr max 0

/-- Pixel (px, py) lies in rectangle r. -/
def memRect (px py : ℕ) (r : Rect) : Prop :=
  r.x ≤ px ∧ px < r.x + r.width ∧ r.y ≤ py ∧ py < r.y + r.height

/-- Two rectangles share no pixel. -/
def disjointR (a b : Rect) : Prop :=
  ∀ px py, ¬ (memRect px py a ∧ memRect px py b)

/-- The union of the four child rectangles is exactly the parent rectangle
    minus the remainder column x + 2 * (width / 2) .. x + width - 1 and the
    remainder row y + 2 * (height / 2) .. y + height - 1 (each nonempty only
    for an odd parent dimension, hence at most one pixel wide). -/
def unionCovers (p a b c d : Rect) : Prop :=
  ∀ px py,
    (memRect px py a ∨ memRect px py b ∨ memRect px py c ∨ memRect px py d) ↔
      (memRect px py p ∧ px < p.x + 2 * (p.width / 2) ∧ py < p.y + 2 * (p.height / 2))

@[simp] theorem Quadrant.bbox_mk (b d l c0 c1 c2 c3 co de) :
    (Quadrant.mk b d l c0 c1 c2 c3 co de).bbox = b := rfl

@[simp] theorem Quadrant.depth_mk (b d l c0 c1 c2 c3 co de) :
    (Quadrant.mk b d l c0 c1 c2 c3 co de).depth = d := rfl

@[simp] theorem Quadrant.is_leaf_mk (b d l c0 c1 c2 c3 co de) :
    (Quadrant.mk b d l c0 c1 c2 c3 co de).is_leaf = l := rfl

@[simp] theorem Quadrant.c0_mk (b d l c0 c1 c2 c3 co de) :
    (Quadrant.mk b d l c0 c1 c2 c3 co de).c0 = c0 := rfl

@[simp] theorem Quadrant.c1_mk (b d l c0 c1 c2 c3 co de) :
    (Quadrant.mk b d l c0 c1 c2 c3 co de).c1 = c1 := rfl

@[simp] theorem Quadrant.c2_mk (b d l c0 c1 c2 c3 co de) :
    (Quadrant.mk b d l c0 c1 c2 c3 co de).c2 = c2 := rfl

@[simp] theorem Quadrant.c3_mk (b d l c0 c1 c2 c3 co de) :
    (Quadrant.mk b d l c0 c1 c2 c3 co de).c3 = c3 := rfl

@[simp] theorem Quadrant.color_mk (b d l c0 c1 c2 c3 co de) :
    (Quadrant.mk b d l c0 c1 c2 c3 co de).color = co := rfl

@[simp] theorem Quadrant.detail_mk (b d l c0 c1 c2 c3 co de) :
    (Quadrant.mk b d l c0 c1 c2 c3 co de).detail = de := rfl

theorem build_leaf {det : Rect → ℝ} {avg : Rect → (Fin 3 → ℕ)} {bbox : Rect}
    {depth maxd : ℕ}
    (h : MAX_DEPTH ≤ depth ∨ det bbox < DETAIL_THRESHOLD) :
    build det avg bbox depth maxd =
      (Quadrant.mk bbox depth true none none none none (avg bbox) (det bbox),
       if maxd < depth then depth else maxd) := by
  rw [build]
  rw [dif_pos h]

theorem build_split {det : Rect → ℝ} {avg : Rect → (Fin 3 → ℕ)} {bbox : Rect}
    {depth maxd : ℕ}
    (h : ¬ (MAX_DEPTH ≤ depth ∨ det bbox < DETAIL_THRESHOLD)) :
    build det avg bbox depth maxd =
      (Quadrant.mk bbox depth false
        (some (build det avg (split_region bbox).1 (depth + 1) maxd).1)
        (some (build det avg (split_region bbox).2.1 (depth + 1)
          (build det avg (split_region bbox).1 (depth + 1) maxd).2).1)
        (some (build det avg (split_region bbox).2.2.1 (depth + 1)
          (build det avg (split_region bbox).2.1 (depth + 1)
            (build det avg (split_region bbox).1 (depth + 1) maxd).2).2).1)
        (some (build det avg (split_region bbox).2.2.2 (depth + 1)
          (build det avg (split_region bbox).2.2.1 (depth + 1)
            (build det avg (split_region bbox).2.1 (depth + 1)
              (build det avg (split_region bbox).1 (depth + 1) maxd).2).2).2).1)
        (avg bbox) (det bbox),
       (build det avg (split_region bbox).2.2.2 (depth + 1)
         (build det avg (split_region bbox).2.2.1 (depth + 1)
           (build det avg (split_region bbox).2.1 (depth + 1)
             (build det avg (split_region bbox).1 (depth + 1) maxd).2).2).2).2) := by
  rw [build]
  rw [dif_neg h]

theorem build_fst_const_aux {det : Rect → ℝ} {avg : Rect → (Fin 3 → ℕ)} :
    ∀ (k depth : ℕ), MAX_DEPTH - depth ≤ k → ∀ (bbox : Rect) (maxd maxd' : ℕ),
      (build det avg bbox depth maxd).1 = (build det avg bbox depth maxd').1 := by
  intro k
  induction k with
  | zero =>
    intro depth hk bbox maxd maxd'
    have hd : MAX_DEPTH ≤ depth := by omega
    rw [build_leaf (Or.inl hd), build_leaf (Or.inl hd)]
  | succ k ih =>
    intro depth hk bbox maxd maxd'
    by_cases h : MAX_DEPTH ≤ depth ∨ det bbox < DETAIL_THRESHOLD
    · rw [build_leaf h, build_leaf h]
    · have hnd : ¬ MAX_DEPTH ≤ depth := fun hh => h (Or.inl hh)
      have hk' : MAX_DEPTH - (depth + 1) ≤ k := by omega
      rw [build_split h, build_split h]
      simp only [Quadrant.mk.injEq, Option.some.injEq, true_and, and_true]
      exact ⟨ih _ hk' _ _ _, ih _ hk' _ _ _, ih _ hk' _ _ _, ih _ hk' _ _ _⟩

theorem build_fst_const {det : Rect → ℝ} {avg : Rect → (Fin 3 → ℕ)}
    (bbox : Rect) (depth maxd maxd' : ℕ) :
    (build det avg bbox depth maxd).1 = (build det avg bbox depth maxd').1 :=
  build_fst_const_aux MAX_DEPTH depth (by omega) bbox maxd maxd'

theorem buildT_leaf {det : Rect → ℝ} {avg : Rect → (Fin 3 → ℕ)} {bbox : Rect}
    {depth : ℕ}
    (h : MAX_DEPTH ≤ depth ∨ det bbox < DETAIL_THRESHOLD) :
    buildT det avg bbox depth =
      Quadrant.mk bbox depth true none none none none (avg bbox) (det bbox) := by
  unfold buildT
  rw [build_leaf h]

theorem buildT_split {det : Rect → ℝ} {avg : Rect → (Fin 3 → ℕ)} {bbox : Rect}
    {depth : ℕ}
    (h : ¬ (MAX_DEPTH ≤ depth ∨ det bbox < DETAIL_THRESHOLD)) :
    buildT det avg bbox depth =
      Quadrant.mk bbox depth false
        (some (buildT det avg (split_region bbox).1 (depth + 1)))
        (some (buildT det avg (split_region bbox).2.1 (depth + 1)))
        (some (buildT det avg (split_region bbox).2.2.1 (depth + 1)))
        (some (buildT det avg (split_region bbox).2.2.2 (depth + 1)))
        (avg bbox) (det bbox) := by
  unfold buildT
  rw [build_split h]
  simp only [Quadrant.mk.injEq, Option.some.injEq, true_and, and_true]
  refine ⟨?_, ?_, ?_⟩ <;> exact build_fst_const _ _ _ _

theorem buildT_bbox (det : Rect → ℝ) (avg : Rect → (Fin 3 → ℕ)) (bbox : Rect)
    (depth : ℕ) : (buildT det avg bbox depth).bbox = bbox := by
  by_cases h : MAX_DEPTH ≤ depth ∨ det bbox < DETAIL_THRESHOLD
  · rw [buildT_leaf h]; rfl
  · rw [buildT_split h]; rfl

theorem buildT_depth (det : Rect → ℝ) (avg : Rect → (Fin 3 → ℕ)) (bbox : Rect)
    (depth : ℕ) : (buildT det avg bbox depth).depth = depth := by
  by_cases h : MAX_DEPTH ≤ depth ∨ det bbox < DETAIL_THRESHOLD
  · rw [buildT_leaf h]; rfl
  · rw [buildT_split h]; rfl

theorem nodes_some (b d l t0 t1 t2 t3 co de) :
    nodes (Quadrant.mk b d l (some t0) (some t1) (some t2) (some t3) co de) =
      Quadrant.mk b d l (some t0) (some t1) (some t2) (some t3) co de ::
        (nodes t0 ++ nodes t1 ++ nodes t2 ++ nodes t3) := by
  simp [nodes]

theorem nodes_none (b d l co de) :
    nodes (Quadrant.mk b d l none none none none co de) =
      [Quadrant.mk b d l none none none none co de] := by
  simp [nodes]

theorem self_mem_nodes (q : Quadrant) : q ∈ nodes q := by
  cases q with
  | mk b d l c0 c1 c2 c3 co de =>
    cases c0 <;> cases c1 <;> cases c2 <;> cases c3 <;> simp [nodes]

theorem build_fst_buildT {det : Rect → ℝ} {avg : Rect → (Fin 3 → ℕ)}
    (bbox : Rect) (depth maxd : ℕ) :
    (build det avg bbox depth maxd).1 = buildT det avg bbox depth :=
  build_fst_const bbox depth maxd 0

/-- The invariant build establishes at every node of a tree grown from start
    depth d0: detail and color are the oracle values of the bbox, the is_leaf
    flag matches the stop condition, a leaf keeps its four nullptr children, a
    non-leaf holds the four recursively built children over the split_region
    rectangles at depth + 1, and the depth lies between d0 and
    max d0 MAX_DEPTH. -/
def NodeInv (det : Rect → ℝ) (avg : Rect → (Fin 3 → ℕ)) (d0 : ℕ)
    (n : Quadrant) : Prop :=
  n.detail = det n.bbox ∧
  n.color = avg n.bbox ∧
  (n.is_leaf = true ↔ (MAX_DEPTH ≤ n.depth ∨ det n.bbox < DETAIL_THRESHOLD)) ∧
  (n.is_leaf = true → n.c0 = none ∧ n.c1 = none ∧ n.c2 = none ∧ n.c3 = none) ∧
  (n.is_leaf = false →
    n.c0 = some (buildT det avg (split_region n.bbox).1 (n.depth + 1)) ∧
    n.c1 = some (buildT det avg (split_region n.bbox).2.1 (n.depth + 1)) ∧
    n.c2 = some (buildT det avg (split_region n.bbox).2.2.1 (n.depth + 1)) ∧
    n.c3 = some (buildT det avg (split_region n.bbox).2.2.2 (n.depth + 1))) ∧
  d0 ≤ n.depth ∧ n.depth ≤ max d0 MAX_DEPTH

theorem NodeInv_mono {det : Rect → ℝ} {avg : Rect → (Fin 3 → ℕ)} {d0 : ℕ}
    {n : Quadrant} (hd : d0 < MAX_DEPTH)
    (h : NodeInv det avg (d0 + 1) n) : NodeInv det avg d0 n := by
  obtain ⟨a, b, c, d, e, f, g⟩ := h
  exact ⟨a, b, c, d, e, by omega, by omega⟩

theorem nodeInv_aux {det : Rect → ℝ} {avg : Rect → (Fin 3 → ℕ)} :
    ∀ (k depth : ℕ), MAX_DEPTH - depth ≤ k →
      ∀ (bbox : Rect) (maxd : ℕ) (n : Quadrant),
        n ∈ nodes (build det avg bbox depth maxd).1 →
          NodeInv det avg depth n := by
  intro k
  induction k with
  | zero =>
    intro depth hk bbox maxd n hn
    have hd : MAX_DEPTH ≤ depth := by omega
    rw [build_fst_buildT, buildT_leaf (Or.inl hd), nodes_none,
      List.mem_singleton] at hn
    subst hn
    unfold NodeInv
    refine ⟨rfl, rfl, ⟨fun _ => Or.inl hd, fun _ => rfl⟩, ?_, ?_,
      le_refl _, le_max_left _ _⟩
    · intro _
      exact ⟨rfl, rfl, rfl, rfl⟩
    · intro hab
      simp only [Quadrant.is_leaf_mk] at hab
      cases hab
  | succ k ih =>
    intro depth hk bbox maxd n hn
    by_cases h : MAX_DEPTH ≤ depth ∨ det bbox < DETAIL_THRESHOLD
    · rw [build_fst_buildT, buildT_leaf h, nodes_none, List.mem_singleton] at hn
      subst hn
      unfold NodeInv
      refine ⟨rfl, rfl, ⟨fun _ => h, fun _ => rfl⟩, ?_, ?_,
        le_refl _, le_max_left _ _⟩
      · intro _
        exact ⟨rfl, rfl, rfl, rfl⟩
      · intro hab
        simp only [Quadrant.is_leaf_mk] at hab
        cases hab
    · have hnd : ¬ MAX_DEPTH ≤ depth := fun hh => h (Or.inl hh)
      have hk' : MAX_DEPTH - (depth + 1) ≤ k := by omega
      rw [build_fst_buildT, buildT_split h, nodes_some] at hn
      simp only [List.mem_cons, List.mem_append, or_assoc] at hn
      rcases hn with rfl | h0 | h1 | h2 | h3
      · unfold NodeInv
        refine ⟨rfl, rfl, ?_, ?_, ?_, le_refl _, le_max_left _ _⟩
        · constructor
          · intro hab
            simp only [Quadrant.is_leaf_mk] at hab
            cases hab
          · intro hc
            exact absurd hc h
        · intro hab
          simp only [Quadrant.is_leaf_mk] at hab
          cases hab
        · intro _
          exact ⟨rfl, rfl, rfl, rfl⟩
      · exact NodeInv_mono (by omega)
          (ih (depth + 1) hk' (split_region bbox).1 0 n h0)
      · exact NodeInv_mono (by omega)
          (ih (depth + 1) hk' (split_region bbox).2.1 0 n h1)
      · exact NodeInv_mono (by omega)
          (ih (depth + 1) hk' (split_region bbox).2.2.1 0 n h2)
      · exact NodeInv_mono (by omega)
          (ih (depth + 1) hk' (split_region bbox).2.2.2 0 n h3)

/-- Every node of the built tree of an image satisfies the build invariant. -/
theorem quadTree_nodeInv (img : Image) (n : Quadrant)
    (hn : n ∈ nodes (quadTree img).1) :
    NodeInv (get_detail img) (average_color img) 0 n :=
  nodeInv_aux MAX_DEPTH 0 (by omega) _ 0 n hn

theorem foldr_max_init (l : List ℕ) (b : ℕ) :
    l.foldr max b = max (l.foldr max 0) b := by
  induction l with
  | nil => simp
  | cons a l ih => simp only [List.foldr_cons, ih]; omega

theorem foldr_max_append (l1 l2 : List ℕ) :
    (l1 ++ l2).foldr max 0 = max (l1.foldr max 0) (l2.foldr max 0) := by
  rw [List.foldr_append, foldr_max_init]

theorem maxLeafDepth_leaf (b : Rect) (d : ℕ) (co : Fin 3 → ℕ) (de : ℝ) :
    maxLeafDepth (Quadrant.mk b d true none none none none co de) = d := by
  simp [maxLeafDepth, leafDepths, nodes_none, List.filterMap_cons,
    Quadrant.is_leaf_mk, Quadrant.depth_mk]

theorem maxLeafDepth_internal (b : Rect) (d : ℕ) (t0 t1 t2 t3 : Quadrant)
    (co : Fin 3 → ℕ) (de : ℝ) :
    maxLeafDepth (Quadrant.mk b d false
        (some t0) (some t1) (some t2) (some t3) co de) =
      max (maxLeafDepth t0)
        (max (maxLeafDepth t1) (max (maxLeafDepth t2) (maxLeafDepth t3))) := by
  unfold maxLeafDepth leafDepths
  rw [nodes_some, List.filterMap_cons]
  simp only [Quadrant.is_leaf_mk, Bool.false_eq_true, if_false,
    List.filterMap_append]
  rw [foldr_max_append, foldr_max_append, foldr_max_append]
  omega

theorem if_lt_eq_max (a b : ℕ) : (if a < b then b else a) = max a b := by
  split_ifs with h <;> omega

theorem build_snd_aux {det : Rect → ℝ} {avg : Rect → (Fin 3 → ℕ)} :
    ∀ (k depth : ℕ), MAX_DEPTH - depth ≤ k → ∀ (bbox : Rect) (maxd : ℕ),
      (build det avg bbox depth maxd).2 =
        max maxd (maxLeafDepth (build det avg bbox depth maxd).1) := by
  intro k
  induction k with
  | zero =>
    intro depth hk bbox maxd
    have hd : MAX_DEPTH ≤ depth := by omega
    rw [build_leaf (Or.inl hd)]
    simp only [maxLeafDepth_leaf, if_lt_eq_max]
  | succ k ih =>
    intro depth hk bbox maxd
    by_cases h : MAX_DEPTH ≤ depth ∨ det bbox < DETAIL_THRESHOLD
    · rw [build_leaf h]
      simp only [maxLeafDepth_leaf, if_lt_eq_max]
    · have hnd : ¬ MAX_DEPTH ≤ depth := fun hh => h (Or.inl hh)
      have hk' : MAX_DEPTH - (depth + 1) ≤ k := by omega
      rw [build_split h]
      simp only [build_fst_buildT]
      rw [maxLeafDepth_internal]
      simp only [ih (depth + 1) hk']
      simp only [build_fst_buildT]
      omega

/-- Claim C5: after build completes on the root, the max_depth field of the
    tree equals the maximum depth over all leaf nodes of the built tree. -/
theorem quadTree_max_depth_realized (img : Image) :
    (quadTree img).2 = maxLeafDepth (quadTree img).1 := by
  have h := @build_snd_aux (get_detail img) (average_color img)
    MAX_DEPTH 0 (by omega) ⟨0, 0, img.cols, img.rows⟩ 0
  simpa [quadTree, Nat.zero_max] using h

theorem weighted_average_of_total_zero (h : ℕ → ℕ) (size : ℕ)
    (ht : (∑ i ∈ Finset.range size, h i) = 0) :
    weighted_average h size = 0 := by
  simp only [weighted_average, ht]
  norm_num

/-- A histogram concentrated in a single bin a has standard deviation 0. -/
theorem weighted_average_single (h : ℕ → ℕ) (a n : ℕ) (ha : a < 256)
    (hn : 0 < n) (hh : ∀ v, v < 256 → h v = if v = a then n else 0) :
    weighted_average h 256 = 0 := by
  have htotal : (∑ v ∈ Finset.range 256, h v) = n := by
    rw [Finset.sum_congr rfl (fun v hv => hh v (Finset.mem_range.mp hv))]
    simp [Finset.sum_ite_eq', Finset.mem_range, ha]
  have hval : (∑ v ∈ Finset.range 256, (v : ℝ) * (h v : ℝ)) = (a : ℝ) * (n : ℝ) := by
    have step : ∀ v ∈ Finset.range 256,
        (v : ℝ) * (h v : ℝ) = if v = a then (v : ℝ) * (n : ℝ) else 0 := by
      intro v hv
      rw [hh v (Finset.mem_range.mp hv)]
      push_cast
      rw [mul_ite, mul_zero]
    rw [Finset.sum_congr rfl step]
    simp [Finset.sum_ite_eq', Finset.mem_range, ha]
  simp only [weighted_average, htotal, hval]
  rw [if_pos hn]
  have hmean : (a : ℝ) * (n : ℝ) / ((n : ℕ) : ℝ) = (a : ℝ) := by
    have hn' : (n : ℝ) ≠ 0 := Nat.cast_ne_zero.mpr hn.ne'
    field_simp
  rw [hmean]
  have herr : (∑ v ∈ Finset.range 256, (h v : ℝ) * ((v : ℝ) - (a : ℝ)) ^ 2) = 0 := by
    apply Finset.sum_eq_zero
    intro v hv
    rw [hh v (Finset.mem_range.mp hv)]
    by_cases hva : v = a
    · subst hva
      simp
    · simp [hva]
  rw [herr]
  simp

/-- A histogram with n pixels in bin 0 and n pixels in bin 255 has standard
    deviation 127.5. -/
theorem weighted_average_binary (h : ℕ → ℕ) (n : ℕ) (hn : 0 < n)
    (hh : ∀ v, v < 256 → h v = if v = 0 then n else if v = 255 then n else 0) :
    weighted_average h 256 = 127.5 := by
  have hn' : (n : ℝ) ≠ 0 := Nat.cast_ne_zero.mpr hn.ne'
  have htotal : (∑ v ∈ Finset.range 256, h v) = 2 * n := by
    have step : ∀ v ∈ Finset.range 256,
        h v = (if v = 0 then n else 0) + (if v = 255 then n else 0) := by
      intro v hv
      rw [hh v (Finset.mem_range.mp hv)]
      split_ifs <;> omega
    rw [Finset.sum_congr rfl step, Finset.sum_add_distrib]
    simp [Finset.sum_ite_eq', Finset.mem_range]
    omega
  have hval : (∑ v ∈ Finset.range 256, (v : ℝ) * (h v : ℝ)) = (255 : ℝ) * (n : ℝ) := by
    have step : ∀ v ∈ Finset.range 256,
        (v : ℝ) * (h v : ℝ) = if v = 255 then (255 : ℝ) * (n : ℝ) else 0 := by
      intro v hv
      rw [hh v (Finset.mem_range.mp hv)]
      push_cast
      by_cases h0 : v = 0
      · subst h0; norm_num
      · by_cases h255 : v = 255
        · subst h255; norm_num
        · simp [h0, h255]
    rw [Finset.sum_congr rfl step]
    simp [Finset.sum_ite_eq', Finset.mem_range]
  simp only [weighted_average, htotal, hval]
  rw [if_pos (by omega : 0 < 2 * n)]
  have hmean : (255 : ℝ) * (n : ℝ) / ((2 * n : ℕ) : ℝ) = 127.5 := by
    push_cast
    field_simp
    ring
  rw [hmean]
  have herr : (∑ v ∈ Finset.range 256, (h v : ℝ) * ((v : ℝ) - 127.5) ^ 2) =
      (n : ℝ) * 16256.25 + (n : ℝ) * 16256.25 := by
    have step : ∀ v ∈ Finset.range 256,
        (h v : ℝ) * ((v : ℝ) - 127.5) ^ 2 =
          (if v = 0 then (n : ℝ) * 16256.25 else 0) +
          (if v = 255 then (n : ℝ) * 16256.25 else 0) := by
      intro v hv
      rw [hh v (Finset.mem_range.mp hv)]
      push_cast
      by_cases h0 : v = 0
      · subst h0; norm_num
      · by_cases h255 : v = 255
        · subst h255; norm_num
        · simp [h0, h255]
    rw [Finset.sum_congr rfl step, Finset.sum_add_distrib]
    simp [Finset.sum_ite_eq', Finset.mem_range]
  rw [herr]
  have hdiv : ((n : ℝ) * 16256.25 + (n : ℝ) * 16256.25) / ((2 * n : ℕ) : ℝ) =
      16256.25 := by
    push_cast
    field_simp
    ring
  rw [hdiv]
  rw [show (16256.25 : ℝ) = 127.5 ^ 2 by norm_num]
  exact Real.sqrt_sq (by norm_num)

/-- The histogram of an empty region has all bins 0. -/
theorem calcHist_empty (img : Image) (r : Rect) (c : Fin 3)
    (hr : r.width * r.height = 0) (v : ℕ) : calcHist img r c v = 0 := by
  rcases Nat.mul_eq_zero.mp hr with h | h <;>
    simp [calcHist, h, Finset.filter_eq_empty_iff]

/-- The detail of an empty region is 0. -/
theorem get_detail_empty (img : Image) (r : Rect)
    (hr : r.width * r.height = 0) : get_detail img r = 0 := by
  have hz : ∀ c : Fin 3, weighted_average (calcHist img r c) 256 = 0 := by
    intro c
    apply weighted_average_of_total_zero
    exact Finset.sum_eq_zero (fun v _ => calcHist_empty img r c hr v)
  simp only [get_detail, hz]
  norm_num

/-- A 1 by 1 all-black image: its root is a leaf at depth 0. -/
def img11 : Image := ⟨1, 1, fun _ _ _ => 0⟩

/-- A 1-column by 2-row image, top pixel black and bottom pixel white in all
    channels: a width-1 region whose detail is far above the threshold. -/
def img21 : Image := ⟨1, 2, fun _ y _ => if y = 1 then 255 else 0⟩

/-- A 2 by 2 checkerboard image, black and white in all channels: the root
    splits once and the four 1 by 1 children are leaves. -/
def img22 : Image := ⟨2, 2, fun x y _ => if (x + y) % 2 = 0 then 0 else 255⟩

/-- A 1-column by 2-row image whose channel 0 takes values 0 and 255 while
    channels 1 and 2 are constant 0: only channel 0 contributes detail. -/
def img8A : Image := ⟨1, 2, fun _ y c => if c = 0 ∧ y = 1 then 255 else 0⟩

theorem img11_hist : ∀ c : Fin 3, ∀ v, v < 256 →
    calcHist img11 ⟨0, 0, 1, 1⟩ c v = if v = 0 then 1 else 0 := by decide

theorem img21_hist : ∀ c : Fin 3, ∀ v, v < 256 →
    calcHist img21 ⟨0, 0, 1, 2⟩ c v =
      if v = 0 then 1 else if v = 255 then 1 else 0 := by decide

theorem img22_hist : ∀ c : Fin 3, ∀ v, v < 256 →
    calcHist img22 ⟨0, 0, 2, 2⟩ c v =
      if v = 0 then 2 else if v = 255 then 2 else 0 := by decide

theorem img22_child_hist : ∀ c : Fin 3, ∀ v, v < 256 →
    (calcHist img22 ⟨0, 0, 1, 1⟩ c v = if v = 0 then 1 else 0) ∧
    (calcHist img22 ⟨1, 0, 1, 1⟩ c v = if v = 255 then 1 else 0) ∧
    (calcHist img22 ⟨0, 1, 1, 1⟩ c v = if v = 255 then 1 else 0) ∧
    (calcHist img22 ⟨1, 1, 1, 1⟩ c v = if v = 0 then 1 else 0) := by decide

theorem img8A_hist0 : ∀ v, v < 256 →
    calcHist img8A ⟨0, 0, 1, 2⟩ 0 v =
      if v = 0 then 1 else if v = 255 then 1 else 0 := by decide

theorem img8A_hist1 : ∀ v, v < 256 →
    calcHist img8A ⟨0, 0, 1, 2⟩ 1 v = if v = 0 then 2 else 0 := by decide

theorem img8A_hist2 : ∀ v, v < 256 →
    calcHist img8A ⟨0, 0, 1, 2⟩ 2 v = if v = 0 then 2 else 0 := by decide

theorem img11_detail : get_detail img11 ⟨0, 0, 1, 1⟩ = 0 := by
  have h : ∀ c : Fin 3, weighted_average (calcHist img11 ⟨0, 0, 1, 1⟩ c) 256 = 0 :=
    fun c => weighted_average_single _ 0 1 (by norm_num) (by norm_num)
      (fun v hv => img11_hist c v hv)
  simp only [get_detail, h]
  norm_num

theorem img21_detail : get_detail img21 ⟨0, 0, 1, 2⟩ = 127.48725 := by
  have h : ∀ c : Fin 3,
      weighted_average (calcHist img21 ⟨0, 0, 1, 2⟩ c) 256 = 127.5 :=
    fun c => weighted_average_binary _ 1 (by norm_num)
      (fun v hv => img21_hist c v hv)
  simp only [get_detail, h]
  norm_num

theorem img22_detail : get_detail img22 ⟨0, 0, 2, 2⟩ = 127.48725 := by
  have h : ∀ c : Fin 3,
      weighted_average (calcHist img22 ⟨0, 0, 2, 2⟩ c) 256 = 127.5 :=
    fun c => weighted_average_binary _ 2 (by norm_num)
      (fun v hv => img22_hist c v hv)
  simp only [get_detail, h]
  norm_num

theorem img22_child_detail :
    get_detail img22 ⟨0, 0, 1, 1⟩ = 0 ∧ get_detail img22 ⟨1, 0, 1, 1⟩ = 0 ∧
    get_detail img22 ⟨0, 1, 1, 1⟩ = 0 ∧ get_detail img22 ⟨1, 1, 1, 1⟩ = 0 := by
  have h00 : ∀ c : Fin 3, weighted_average (calcHist img22 ⟨0, 0, 1, 1⟩ c) 256 = 0 :=
    fun c => weighted_average_single _ 0 1 (by norm_num) (by norm_num)
      (fun v hv => (img22_child_hist c v hv).1)
  have h10 : ∀ c : Fin 3, weighted_average (calcHist img22 ⟨1, 0, 1, 1⟩ c) 256 = 0 :=
    fun c => weighted_average_single _ 255 1 (by norm_num) (by norm_num)
      (fun v hv => (img22_child_hist c v hv).2.1)
  have h01 : ∀ c : Fin 3, weighted_average (calcHist img22 ⟨0, 1, 1, 1⟩ c) 256 = 0 :=
    fun c => weighted_average_single _ 255 1 (by norm_num) (by norm_num)
      (fun v hv => (img22_child_hist c v hv).2.2.1)
  have h11 : ∀ c : Fin 3, weighted_average (calcHist img22 ⟨1, 1, 1, 1⟩ c) 256 = 0 :=
    fun c => weighted_average_single _ 0 1 (by norm_num) (by norm_num)
      (fun v hv => (img22_child_hist c v hv).2.2.2)
  refine ⟨?_, ?_, ?_, ?_⟩ <;>
    simp only [get_detail, h00, h10, h01, h11] <;> norm_num

theorem img8A_detail : get_detail img8A ⟨0, 0, 1, 2⟩ = 14.535 := by
  have h0 : weighted_average (calcHist img8A ⟨0, 0, 1, 2⟩ 0) 256 = 127.5 :=
    weighted_average_binary _ 1 (by norm_num) img8A_hist0
  have h1 : weighted_average (calcHist img8A ⟨0, 0, 1, 2⟩ 1) 256 = 0 :=
    weighted_average_single _ 0 2 (by norm_num) (by norm_num) img8A_hist1
  have h2 : weighted_average (calcHist img8A ⟨0, 0, 1, 2⟩ 2) 256 = 0 :=
    weighted_average_single _ 0 2 (by norm_num) (by norm_num) img8A_hist2
  simp only [get_detail, h0, h1, h2]
  norm_num

theorem cond_img11_root :
    MAX_DEPTH ≤ 0 ∨ get_detail img11 ⟨0, 0, 1, 1⟩ < DETAIL_THRESHOLD :=
  Or.inr (by rw [img11_detail]; norm_num [DETAIL_THRESHOLD])

theorem cond_img21_root :
    ¬ (MAX_DEPTH ≤ 0 ∨ get_detail img21 ⟨0, 0, 1, 2⟩ < DETAIL_THRESHOLD) := by
  intro hc
  rcases hc with hc | hc
  · norm_num [MAX_DEPTH] at hc
  · rw [img21_detail] at hc
    norm_num [DETAIL_THRESHOLD] at hc

theorem cond_img22_root :
    ¬ (MAX_DEPTH ≤ 0 ∨ get_detail img22 ⟨0, 0, 2, 2⟩ < DETAIL_THRESHOLD) := by
  intro hc
  rcases hc with hc | hc
  · norm_num [MAX_DEPTH] at hc
  · rw [img22_detail] at hc
    norm_num [DETAIL_THRESHOLD] at hc

theorem quadTree_img11_eq : (quadTree img11).1 =
    Quadrant.mk ⟨0, 0, 1, 1⟩ 0 true none none none none
      (average_color img11 ⟨0, 0, 1, 1⟩) (get_detail img11 ⟨0, 0, 1, 1⟩) := by
  show (build (get_detail img11) (average_color img11) ⟨0, 0, 1, 1⟩ 0 0).1 = _
  rw [build_fst_buildT]
  exact buildT_leaf cond_img11_root

theorem quadTree_img22_eq : (quadTree img22).1 =
    Quadrant.mk ⟨0, 0, 2, 2⟩ 0 false
      (some (Quadrant.mk ⟨0, 0, 1, 1⟩ 1 true none none none none
        (average_color img22 ⟨0, 0, 1, 1⟩) (get_detail img22 ⟨0, 0, 1, 1⟩)))
      (some (Quadrant.mk ⟨1, 0, 1, 1⟩ 1 true none none none none
        (average_color img22 ⟨1, 0, 1, 1⟩) (get_detail img22 ⟨1, 0, 1, 1⟩)))
      (some (Quadrant.mk ⟨0, 1, 1, 1⟩ 1 true none none none none
        (average_color img22 ⟨0, 1, 1, 1⟩) (get_detail img22 ⟨0, 1, 1, 1⟩)))
      (some (Quadrant.mk ⟨1, 1, 1, 1⟩ 1 true none none none none
        (average_color img22 ⟨1, 1, 1, 1⟩) (get_detail img22 ⟨1, 1, 1, 1⟩)))
      (average_color img22 ⟨0, 0, 2, 2⟩) (get_detail img22 ⟨0, 0, 2, 2⟩) := by
  show (build (get_detail img22) (average_color img22) ⟨0, 0, 2, 2⟩ 0 0).1 = _
  rw [build_fst_buildT, buildT_split cond_img22_root]
  have e0 : (split_region (⟨0, 0, 2, 2⟩ : Rect)).1 = ⟨0, 0, 1, 1⟩ := rfl
  have e1 : (split_region (⟨0, 0, 2, 2⟩ : Rect)).2.1 = ⟨1, 0, 1, 1⟩ := rfl
  have e2 : (split_region (⟨0, 0, 2, 2⟩ : Rect)).2.2.1 = ⟨0, 1, 1, 1⟩ := rfl
  have e3 : (split_region (⟨0, 0, 2, 2⟩ : Rect)).2.2.2 = ⟨1, 1, 1, 1⟩ := rfl
  rw [e0, e1, e2, e3]
  have c00 : MAX_DEPTH ≤ 0 + 1 ∨
      get_detail img22 (⟨0, 0, 1, 1⟩ : Rect) < DETAIL_THRESHOLD :=
    Or.inr (by rw [img22_child_detail.1]; norm_num [DETAIL_THRESHOLD])
  have c01 : MAX_DEPTH ≤ 0 + 1 ∨
      get_detail img22 (⟨1, 0, 1, 1⟩ : Rect) < DETAIL_THRESHOLD :=
    Or.inr (by rw [img22_child_detail.2.1]; norm_num [DETAIL_THRESHOLD])
  have c02 : MAX_DEPTH ≤ 0 + 1 ∨
      get_detail img22 (⟨0, 1, 1, 1⟩ : Rect) < DETAIL_THRESHOLD :=
    Or.inr (by rw [img22_child_detail.2.2.1]; norm_num [DETAIL_THRESHOLD])
  have c03 : MAX_DEPTH ≤ 0 + 1 ∨
      get_detail img22 (⟨1, 1, 1, 1⟩ : Rect) < DETAIL_THRESHOLD :=
    Or.inr (by rw [img22_child_detail.2.2.2]; norm_num [DETAIL_THRESHOLD])
  rw [buildT_leaf c00, buildT_leaf c01, buildT_leaf c02, buildT_leaf c03]

theorem quadTree_img21_eq : (quadTree img21).1 =
    Quadrant.mk ⟨0, 0, 1, 2⟩ 0 false
      (some (Quadrant.mk ⟨0, 0, 0, 1⟩ 1 true none none none none
        (average_color img21 ⟨0, 0, 0, 1⟩) (get_detail img21 ⟨0, 0, 0, 1⟩)))
      (some (Quadrant.mk ⟨0, 0, 0, 1⟩ 1 true none none none none
        (average_color img21 ⟨0, 0, 0, 1⟩) (get_detail img21 ⟨0, 0, 0, 1⟩)))
      (some (Quadrant.mk ⟨0, 1, 0, 1⟩ 1 true none none none none
        (average_color img21 ⟨0, 1, 0, 1⟩) (get_detail img21 ⟨0, 1, 0, 1⟩)))
      (some (Quadrant.mk ⟨0, 1, 0, 1⟩ 1 true none none none none
        (average_color img21 ⟨0, 1, 0, 1⟩) (get_detail img21 ⟨0, 1, 0, 1⟩)))
      (average_color img21 ⟨0, 0, 1, 2⟩) (get_detail img21 ⟨0, 0, 1, 2⟩) := by
  show (build (get_detail img21) (average_color img21) ⟨0, 0, 1, 2⟩ 0 0).1 = _
  rw [build_fst_buildT, buildT_split cond_img21_root]
  have e0 : (split_region (⟨0, 0, 1, 2⟩ : Rect)).1 = ⟨0, 0, 0, 1⟩ := rfl
  have e1 : (split_region (⟨0, 0, 1, 2⟩ : Rect)).2.1 = ⟨0, 0, 0, 1⟩ := rfl
  have e2 : (split_region (⟨0, 0, 1, 2⟩ : Rect)).2.2.1 = ⟨0, 1, 0, 1⟩ := rfl
  have e3 : (split_region (⟨0, 0, 1, 2⟩ : Rect)).2.2.2 = ⟨0, 1, 0, 1⟩ := rfl
  rw [e0, e1, e2, e3]
  have c10 : MAX_DEPTH ≤ 0 + 1 ∨
      get_detail img21 (⟨0, 0, 0, 1⟩ : Rect) < DETAIL_THRESHOLD :=
    Or.inr (by rw [get_detail_empty img21 ⟨0, 0, 0, 1⟩ (by norm_num)]; norm_num [DETAIL_THRESHOLD])
  have c11 : MAX_DEPTH ≤ 0 + 1 ∨
      get_detail img21 (⟨0, 1, 0, 1⟩ : Rect) < DETAIL_THRESHOLD :=
    Or.inr (by rw [get_detail_empty img21 ⟨0, 1, 0, 1⟩ (by norm_num)]; norm_num [DETAIL_THRESHOLD])
  rw [buildT_leaf c10, buildT_leaf c11]

/-- Claim C1: the render traversal is claimed to fill a node exactly when it
    is a leaf or its depth equals targetDepth and to recurse into all four
    children otherwise.  The code instead compares the integer-promoted
    is_leaf flag with targetDepth and its loop recurses only into null
    children, so on the built tree of the 2 by 2 checkerboard image at
    targetDepth 1 it issues no drawing command at all, although the root is
    not a leaf and its children are leaves at depth 1 = targetDepth that the
    claimed behaviour would fill. -/
theorem draw_quadrants_skips_real_children :
    draw_quadrants (quadTree img22).1 1 false = some [] ∧
    (quadTree img22).1.is_leaf = false ∧
    ∃ c, (quadTree img22).1.c0 = some c ∧ c.is_leaf = true ∧ c.depth = 1 := by
  rw [quadTree_img22_eq]
  refine ⟨?_, rfl, ⟨_, rfl, rfl, rfl⟩⟩
  simp [draw_quadrants]

/-- Claim C2: build is claimed never to split a node whose region has width
    or height 0 or 1, so that no Quadrant is constructed over an empty
    region.  The code has no such guard: on a 1 by 2 black-and-white image
    the root has detail about 127.49, far above the threshold, so build
    splits it and constructs children over width-0 (empty) regions. -/
theorem build_splits_degenerate_region :
    (quadTree img21).1.is_leaf = false ∧
    ∃ c, (quadTree img21).1.c0 = some c ∧ c.bbox.width = 0 := by
  rw [quadTree_img21_eq]
  exact ⟨rfl, _, rfl, rfl⟩

/-- Claim C3: teardown is claimed to release every node exactly once.  The
    loop of free_quadtree runs its body only for null children, so on a tree
    whose root is a leaf it immediately recurses into a null pointer and
    dereferences it (a crash), and on a tree whose root is internal it skips
    all four non-null children and releases none of the 5 nodes. -/
theorem free_quadtree_releases_no_node :
    free_quadtree (quadTree img11).1 = none ∧
    nodes (quadTree img11).1 ≠ [] ∧
    free_quadtree (quadTree img22).1 = some [] ∧
    (nodes (quadTree img22).1).length = 5 := by
  refine ⟨?_, ?_, ?_, ?_⟩
  · rw [quadTree_img11_eq]
    rfl
  · rw [quadTree_img11_eq, nodes_none]
    simp
  · rw [quadTree_img22_eq]
    rfl
  · rw [quadTree_img22_eq, nodes_some]
    simp [nodes_none]

theorem split_disjoint (r : Rect) :
    disjointR (split_region r).1 (split_region r).2.1 ∧
    disjointR (split_region r).1 (split_region r).2.2.1 ∧
    disjointR (split_region r).1 (split_region r).2.2.2 ∧
    disjointR (split_region r).2.1 (split_region r).2.2.1 ∧
    disjointR (split_region r).2.1 (split_region r).2.2.2 ∧
    disjointR (split_region r).2.2.1 (split_region r).2.2.2 := by
  refine ⟨?_, ?_, ?_, ?_, ?_, ?_⟩ <;>
    · intro px py hm
      obtain ⟨m1, m2⟩ := hm
      simp only [split_region, memRect] at m1 m2
      omega

theorem split_covers (r : Rect) :
    unionCovers r (split_region r).1 (split_region r).2.1
      (split_region r).2.2.1 (split_region r).2.2.2 := by
  simp only [unionCovers, split_region, memRect]
  intro px py
  omega

/-- Claim C4: during build a node becomes a leaf exactly when its depth is at
    least MAX_DEPTH (8) or its stored detail score is strictly below
    DETAIL_THRESHOLD (13), and otherwise it is split and carries exactly four
    non-null recursively built children. -/
theorem build_stop_condition (img : Image) (n : Quadrant)
    (hn : n ∈ nodes (quadTree img).1) :
    (n.is_leaf = true ↔ (MAX_DEPTH ≤ n.depth ∨ n.detail < DETAIL_THRESHOLD)) ∧
    (n.is_leaf = false →
      n.c0.isSome = true ∧ n.c1.isSome = true ∧ n.c2.isSome = true ∧
        n.c3.isSome = true) := by
  obtain ⟨hdet, _, hiff, _, hchild, _, _⟩ := quadTree_nodeInv img n hn
  constructor
  · rw [hdet]
    exact hiff
  · intro hl
    obtain ⟨e0, e1, e2, e3⟩ := hchild hl
    simp [e0, e1, e2, e3]

/-- Witness for C4 at the root of the built tree of img22. -/
theorem build_stop_condition_inst :
    ((quadTree img22).1 ∈ nodes (quadTree img22).1) ∧
    ((quadTree img22).1.is_leaf = true ↔
      (MAX_DEPTH ≤ (quadTree img22).1.depth ∨
        (quadTree img22).1.detail < DETAIL_THRESHOLD)) ∧
    ((quadTree img22).1.is_leaf = false →
      (quadTree img22).1.c0.isSome = true ∧
      (quadTree img22).1.c1.isSome = true ∧
      (quadTree img22).1.c2.isSome = true ∧
      (quadTree img22).1.c3.isSome = true) := by
  have hm := self_mem_nodes (quadTree img22).1
  exact ⟨hm, (build_stop_condition img22 _ hm).1,
    (build_stop_condition img22 _ hm).2⟩

/-- Claim C6: for every non-leaf node of a built tree, the four children have
    the parent dimensions halved by integer division, their bounding boxes
    are pairwise non-overlapping, and their union is the parent bbox up to
    the remainder column and row of an odd parent dimension. -/
theorem children_partition_parent (img : Image) (n : Quadrant)
    (hn : n ∈ nodes (quadTree img).1) (hl : n.is_leaf = false)
    (t0 t1 t2 t3 : Quadrant)
    (h0 : n.c0 = some t0) (h1 : n.c1 = some t1) (h2 : n.c2 = some t2)
    (h3 : n.c3 = some t3) :
    (t0.bbox.width = n.bbox.width / 2 ∧ t0.bbox.height = n.bbox.height / 2 ∧
     t1.bbox.width = n.bbox.width / 2 ∧ t1.bbox.height = n.bbox.height / 2 ∧
     t2.bbox.width = n.bbox.width / 2 ∧ t2.bbox.height = n.bbox.height / 2 ∧
     t3.bbox.width = n.bbox.width / 2 ∧ t3.bbox.height = n.bbox.height / 2) ∧
    (disjointR t0.bbox t1.bbox ∧ disjointR t0.bbox t2.bbox ∧
     disjointR t0.bbox t3.bbox ∧ disjointR t1.bbox t2.bbox ∧
     disjointR t1.bbox t3.bbox ∧ disjointR t2.bbox t3.bbox) ∧
    unionCovers n.bbox t0.bbox t1.bbox t2.bbox t3.bbox := by
  obtain ⟨_, _, _, _, hchild, _, _⟩ := quadTree_nodeInv img n hn
  obtain ⟨e0, e1, e2, e3⟩ := hchild hl
  rw [h0, Option.some_inj] at e0
  rw [h1, Option.some_inj] at e1
  rw [h2, Option.some_inj] at e2
  rw [h3, Option.some_inj] at e3
  have b0 : t0.bbox = (split_region n.bbox).1 := by rw [e0, buildT_bbox]
  have b1 : t1.bbox = (split_region n.bbox).2.1 := by rw [e1, buildT_bbox]
  have b2 : t2.bbox = (split_region n.bbox).2.2.1 := by rw [e2, buildT_bbox]
  have b3 : t3.bbox = (split_region n.bbox).2.2.2 := by rw [e3, buildT_bbox]
  rw [b0, b1, b2, b3]
  obtain ⟨d1, d2, d3, d4, d5, d6⟩ := split_disjoint n.bbox
  exact ⟨⟨rfl, rfl, rfl, rfl, rfl, rfl, rfl, rfl⟩, ⟨d1, d2, d3, d4, d5, d6⟩,
    split_covers n.bbox⟩

/-- The first child of the built img22 root, as an explicit leaf node. -/
noncomputable def q22c0 : Quadrant :=
  Quadrant.mk ⟨0, 0, 1, 1⟩ 1 true none none none none
    (average_color img22 ⟨0, 0, 1, 1⟩) (get_detail img22 ⟨0, 0, 1, 1⟩)

/-- The second child of the built img22 root. -/
noncomputable def q22c1 : Quadrant :=
  Quadrant.mk ⟨1, 0, 1, 1⟩ 1 true none none none none
    (average_color img22 ⟨1, 0, 1, 1⟩) (get_detail img22 ⟨1, 0, 1, 1⟩)

/-- The third child of the built img22 root. -/
noncomputable def q22c2 : Quadrant :=
  Quadrant.mk ⟨0, 1, 1, 1⟩ 1 true none none none none
    (average_color img22 ⟨0, 1, 1, 1⟩) (get_detail img22 ⟨0, 1, 1, 1⟩)

/-- The fourth child of the built img22 root. -/
noncomputable def q22c3 : Quadrant :=
  Quadrant.mk ⟨1, 1, 1, 1⟩ 1 true none none none none
    (average_color img22 ⟨1, 1, 1, 1⟩) (get_detail img22 ⟨1, 1, 1, 1⟩)

theorem q22_shape : (quadTree img22).1.is_leaf = false ∧
    (quadTree img22).1.c0 = some q22c0 ∧ (quadTree img22).1.c1 = some q22c1 ∧
    (quadTree img22).1.c2 = some q22c2 ∧ (quadTree img22).1.c3 = some q22c3 := by
  rw [quadTree_img22_eq]
  exact ⟨rfl, rfl, rfl, rfl, rfl⟩

/-- Witness for C6 at the root of the built tree of img22. -/
theorem children_partition_parent_inst :
    ((quadTree img22).1 ∈ nodes (quadTree img22).1) ∧
    (quadTree img22).1.is_leaf = false ∧
    (quadTree img22).1.c0 = some q22c0 ∧ (quadTree img22).1.c1 = some q22c1 ∧
    (quadTree img22).1.c2 = some q22c2 ∧ (quadTree img22).1.c3 = some q22c3 ∧
    q22c0.bbox.width = (quadTree img22).1.bbox.width / 2 ∧
    disjointR q22c0.bbox q22c1.bbox ∧
    unionCovers (quadTree img22).1.bbox q22c0.bbox q22c1.bbox q22c2.bbox
      q22c3.bbox := by
  have hm := self_mem_nodes (quadTree img22).1
  obtain ⟨hl, h0, h1, h2, h3⟩ := q22_shape
  have main := children_partition_parent img22 _ hm hl q22c0 q22c1 q22c2 q22c3
    h0 h1 h2 h3
  exact ⟨hm, hl, h0, h1, h2, h3, main.1.1, main.2.1.1, main.2.2⟩

/-- Claim C7: in every built tree, each child depth is the parent depth plus
    one, and no leaf has depth above MAX_DEPTH. -/
theorem child_depth_succ_leaf_bounded (img : Image) (n : Quadrant)
    (hn : n ∈ nodes (quadTree img).1) :
    (∀ c : Quadrant,
      n.c0 = some c ∨ n.c1 = some c ∨ n.c2 = some c ∨ n.c3 = some c →
        c.depth = n.depth + 1) ∧
    (n.is_leaf = true → n.depth ≤ MAX_DEPTH) := by
  obtain ⟨_, _, _, hnone, hchild, _, hmax⟩ := quadTree_nodeInv img n hn
  constructor
  · intro c hc
    cases hl : n.is_leaf with
    | true =>
      obtain ⟨z0, z1, z2, z3⟩ := hnone hl
      rcases hc with hc | hc | hc | hc
      · rw [z0] at hc; exact Option.noConfusion hc
      · rw [z1] at hc; exact Option.noConfusion hc
      · rw [z2] at hc; exact Option.noConfusion hc
      · rw [z3] at hc; exact Option.noConfusion hc
    | false =>
      obtain ⟨e0, e1, e2, e3⟩ := hchild hl
      rcases hc with hc | hc | hc | hc
      · rw [hc, Option.some_inj] at e0
        rw [e0, buildT_depth]
      · rw [hc, Option.some_inj] at e1
        rw [e1, buildT_depth]
      · rw [hc, Option.some_inj] at e2
        rw [e2, buildT_depth]
      · rw [hc, Option.some_inj] at e3
        rw [e3, buildT_depth]
  · intro _
    simp only [MAX_DEPTH] at hmax ⊢
    omega

/-- Witness for C7: a child of the img22 root at depth 1, and the leaf root
    of img11 within the depth bound. -/
theorem child_depth_succ_leaf_bounded_inst :
    ((quadTree img22).1 ∈ nodes (quadTree img22).1) ∧
    (quadTree img22).1.c0 = some q22c0 ∧
    q22c0.depth = (quadTree img22).1.depth + 1 ∧
    ((quadTree img11).1 ∈ nodes (quadTree img11).1) ∧
    (quadTree img11).1.is_leaf = true ∧
    (quadTree img11).1.depth ≤ MAX_DEPTH := by
  have hm := self_mem_nodes (quadTree img22).1
  obtain ⟨_, h0, _, _, _⟩ := q22_shape
  have hm11 := self_mem_nodes (quadTree img11).1
  have hl11 : (quadTree img11).1.is_leaf = true := by
    rw [quadTree_img11_eq]
    rfl
  exact ⟨hm, h0,
    (child_depth_succ_leaf_bounded img22 _ hm).1 q22c0 (Or.inl h0), hm11, hl11,
    (child_depth_succ_leaf_bounded img11 _ hm11).2 hl11⟩

/-- Claim C10: after build, a node is a leaf exactly when all four entries of
    its children vector are null, and moreover every non-leaf node has all
    four children non-null while every leaf keeps four null slots: no node is
    ever partially populated. -/
theorem leaf_iff_children_null (img : Image) (n : Quadrant)
    (hn : n ∈ nodes (quadTree img).1) :
    (n.is_leaf = true ↔
      (n.c0 = none ∧ n.c1 = none ∧ n.c2 = none ∧ n.c3 = none)) ∧
    (n.is_leaf = false →
      n.c0.isSome = true ∧ n.c1.isSome = true ∧ n.c2.isSome = true ∧
        n.c3.isSome = true) := by
  obtain ⟨_, _, _, hnone, hchild, _, _⟩ := quadTree_nodeInv img n hn
  constructor
  · constructor
    · exact hnone
    · intro hz
      cases hl : n.is_leaf with
      | true => rfl
      | false =>
        obtain ⟨e0, _, _, _⟩ := hchild hl
        rw [hz.1] at e0
        exact Option.noConfusion e0
  · intro hl
    obtain ⟨e0, e1, e2, e3⟩ := hchild hl
    simp [e0, e1, e2, e3]

/-- Witness for C10 at the leaf root of img11 (four null slots) and at the
    non-leaf root of img22 (four non-null children). -/
theorem leaf_iff_children_null_inst :
    ((quadTree img11).1 ∈ nodes (quadTree img11).1) ∧
    ((quadTree img11).1.is_leaf = true ↔
      ((quadTree img11).1.c0 = none ∧ (quadTree img11).1.c1 = none ∧
       (quadTree img11).1.c2 = none ∧ (quadTree img11).1.c3 = none)) ∧
    ((quadTree img22).1 ∈ nodes (quadTree img22).1) ∧
    (quadTree img22).1.is_leaf = false ∧
    ((quadTree img22).1.c0.isSome = true ∧
     (quadTree img22).1.c1.isSome = true ∧
     (quadTree img22).1.c2.isSome = true ∧
     (quadTree img22).1.c3.isSome = true) := by
  have hm11 := self_mem_nodes (quadTree img11).1
  have hm22 := self_mem_nodes (quadTree img22).1
  have hl22 : (quadTree img22).1.is_leaf = false := q22_shape.1
  exact ⟨hm11, (leaf_iff_children_null img11 _ hm11).1, hm22, hl22,
    (leaf_iff_children_null img22 _ hm22).2 hl22⟩

/-- Claim C9: a histogram with total bin count zero yields statistic 0 rather
    than failing, and a region with zero pixel count yields detail 0. -/
theorem zero_count_statistics (h : ℕ → ℕ) (size : ℕ) (img : Image) (r : Rect)
    (hh : (∑ i ∈ Finset.range size, h i) = 0) (hr : r.width * r.height = 0) :
    weighted_average h size = 0 ∧ get_detail img r = 0 :=
  ⟨weighted_average_of_total_zero h size hh, get_detail_empty img r hr⟩

/-- Witness for C9: the all-zero histogram and a width-0 region. -/
theorem zero_count_statistics_inst :
    (∑ i ∈ Finset.range 256, (fun _ => 0 : ℕ → ℕ) i) = 0 ∧
    (⟨3, 3, 0, 5⟩ : Rect).width * (⟨3, 3, 0, 5⟩ : Rect).height = 0 ∧
    weighted_average (fun _ => 0) 256 = 0 ∧
    get_detail img11 ⟨3, 3, 0, 5⟩ = 0 := by
  have h1 : (∑ i ∈ Finset.range 256, (fun _ => 0 : ℕ → ℕ) i) = 0 := by simp
  have h2 : (⟨3, 3, 0, 5⟩ : Rect).width * (⟨3, 3, 0, 5⟩ : Rect).height = 0 := rfl
  obtain ⟨w1, w2⟩ := zero_count_statistics (fun _ => 0) 256 img11 ⟨3, 3, 0, 5⟩ h1 h2
  exact ⟨h1, h2, w1, w2⟩

end QTC
